import Mathlib

/-!
# Verification of the multi-database gateway core

A shallow embedding of the repository's two source files:

* `db_adapters.py` — the backend drivers (PostgreSQL, MySQL, SQL Server,
  SQLite), the round-robin pool mechanics, and the `get_adapter` factory;
* `server.py` — configuration normalization, the connection manager
  (`_ensure_connection` / `_load_database_connections`) and the fan-out
  coordinator (`_query_multiple_databases`).

Python dictionaries are modelled as insertion-ordered association lists
(`dictInsert` keeps the position of an existing key and appends a new one,
exactly like CPython dicts).  JSON-ish configuration values are modelled by
the inductive `JVal`.  Exceptions are modelled by `Except String`.  External
effects (reading the configuration file, connecting to a backend, running a
query on a live connection) are oracles carried in an `Env` record.
-/

set_option autoImplicit false

namespace MultiDb

/-- JSON-like values, as produced by `json.load` from the configuration file
and as row results returned by queries. Objects are insertion-ordered
key/value lists, like Python dicts. -/
inductive JVal where
  | str (s : String)
  | num (n : Int)
  | bool (b : Bool)
  | null
  | arr (elems : List JVal)
  | obj (fields : List (String × JVal))

/-- `true` exactly for object (mapping) values; models `isinstance(x, dict)`. -/
def JVal.isObj : JVal → Bool
  | .obj _ => true
  | _ => false

/-- Python dict lookup on an association list (keys are unique in the lists we
build, so the first match is the only one). -/
def dictLookup {α : Type} (m : List (String × α)) (k : String) : Option α :=
  match m with
  | [] => none
  | e :: rest => if e.1 = k then some e.2 else dictLookup rest k

/-- Python dict assignment `m[k] = v`: an existing key keeps its position and
gets the new value; a new key is appended at the end. -/
def dictInsert {α : Type} (m : List (String × α)) (k : String) (v : α) :
    List (String × α) :=
  if m.any (fun e => e.1 = k) then
    m.map (fun e => if e.1 = k then (e.1, v) else e)
  else
    m ++ [(k, v)]

/-- The keys of an association list, in order. -/
def dictKeys {α : Type} (m : List (String × α)) : List String :=
  m.map (fun e => e.1)

/-! ## `db_adapters.py`: the driver factory -/

/-- Python's `str.lower()` on one character, for the ASCII range (all
backend-type tokens the sources compare against are ASCII). -/
def charLower (c : Char) : Char :=
  if 'A' ≤ c ∧ c ≤ 'Z' then Char.ofNat (c.toNat + 32) else c

/-- Python's `str.lower()` (ASCII range). -/
def strLower (s : String) : String :=
  ⟨s.data.map charLower⟩

/-- The four concrete driver classes of `db_adapters.py`. -/
inductive AdapterKind where
  | postgresql
  | mysql
  | sqlserver
  | sqlite
deriving DecidableEq

/-- The error text raised by `get_adapter` for an unrecognized token
(`db_adapters.py:444`). -/
def unsupportedMsg (db_type : String) : String :=
  "Unsupported database type: " ++ db_type ++
    ". Supported types: postgresql, mysql, sqlserver, sqlite"

/-- `get_adapter` (`db_adapters.py:431-444`): lowercases the token, matches it
against the alias lists, and raises `ValueError` for anything else. -/
def get_adapter (db_type : String) : Except String AdapterKind :=
  let db_type_lower := strLower db_type
  if db_type_lower ∈ ["postgres", "postgresql", "pg"] then
    .ok .postgresql
  else if db_type_lower ∈ ["mysql", "mariadb"] then
    .ok .mysql
  else if db_type_lower ∈ ["sqlserver", "mssql", "sql server"] then
    .ok .sqlserver
  else if db_type_lower ∈ ["sqlite", "sqlite3"] then
    .ok .sqlite
  else
    .error (unsupportedMsg db_type)

/-! ## `db_adapters.py`: the MySQL driver's table listing

`MySQLAdapter.list_tables` (`db_adapters.py:141-165`) builds one of two
catalog queries depending on whether a schema was supplied (Python truthiness:
`if schema:`), then calls `cur.execute(query, params)` **and then**
`cur.execute(query)` before fetching.  We record the exact sequence of
`execute` calls as a trace of (statement text, optional bind-argument tuple)
pairs; `execute(query)` passes no argument tuple (`none`), while
`execute(query, params)` passes `some params`. -/

/-- The schema-parametrized catalog query of the `if schema:` branch. -/
def mysqlListTablesQuerySchema : String :=
  "SELECT table_name as name, 'BASE TABLE' as type FROM information_schema.tables WHERE table_schema = %s ORDER BY table_name;"

/-- The catalog query of the `else` branch (schema defaults to `database()`). -/
def mysqlListTablesQueryDefault : String :=
  "SELECT table_name as name, 'BASE TABLE' as type FROM information_schema.tables WHERE table_schema = database() ORDER BY table_name;"

/-- Python truthiness of the optional `schema` argument: `None` and the empty
string are falsy. -/
def schemaTruthy : Option String → Bool
  | none => false
  | some s => s ≠ ""

/-- The sequence of `cur.execute` calls made by one invocation of
`MySQLAdapter.list_tables` (`db_adapters.py:141-165`, in particular the two
consecutive `execute` calls at lines 162-163). -/
def MySQLAdapter_list_tables_executes (schema : Option String) :
    List (String × Option (List String)) :=
  match schema, schemaTruthy schema with
  | some s, true =>
      [(mysqlListTablesQuerySchema, some [s]), (mysqlListTablesQuerySchema, none)]
  | _, _ =>
      [(mysqlListTablesQueryDefault, some []), (mysqlListTablesQueryDefault, none)]

/-! ## `db_adapters.py`: round-robin pools (SQL Server, SQLite)

Both `SQLServerAdapter` and `SQLiteAdapter` keep their pool as
`{"pool": [...], "current": 0}` and share a textually identical
`_get_connection`: it reads the current index, advances it by one modulo the
pool length, and returns the entry at the old index.  Connections are
modelled by opaque identifiers (`Nat`). -/

/-- The `{"pool": ..., "current": ...}` dictionary of both list-based pools. -/
structure RRPool where
  pool : List Nat
  current : Nat
deriving DecidableEq

/-- `SQLServerAdapter._get_connection` (`db_adapters.py:302-307`). -/
def SQLServerAdapter_get_connection (p : RRPool) : Nat × RRPool :=
  let idx := p.current
  (p.pool.getD idx 0, { pool := p.pool, current := (idx + 1) % p.pool.length })

/-- `SQLiteAdapter._get_connection` (`db_adapters.py:383-388`); its body is
textually identical to the SQL Server one. -/
def SQLiteAdapter_get_connection (p : RRPool) : Nat × RRPool :=
  SQLServerAdapter_get_connection p

/-- `k` successive acquisitions from a round-robin pool, returning the
connections handed out in order together with the final pool state. -/
def acquireSeq : Nat → RRPool → List Nat × RRPool
  | 0, p => ([], p)
  | k + 1, p =>
    let step := SQLServerAdapter_get_connection p
    let rest := acquireSeq k step.2
    (step.1 :: rest.1, rest.2)

/-! ## `db_adapters.py`: closing pools

`SQLServerAdapter.close` (`db_adapters.py:360-363`) iterates over the pooled
pyodbc connections calling `conn.close()` on each, then shuts the executor
down.  A pyodbc connection is modelled by its open/closed state (`true` =
open). -/

/-- pyodbc `Connection.close()`: closes an open connection; on a connection
that is already closed it raises
`ProgrammingError("Attempt to use a closed connection.")` (pyodbc's documented
behaviour for any use of a closed connection handle). -/
def pyodbcConnectionClose (conn : Bool) : Except String Bool :=
  if conn then .ok false else .error "Attempt to use a closed connection."

/-- The pool object built by `SQLServerAdapter.connect`
(`db_adapters.py:294-300`): a list of pyodbc connections plus the worker
executor (only its shut-down flag matters here). -/
structure SqlServerPool where
  pool : List Bool
  executorShutdown : Bool
deriving DecidableEq

/-- `SQLServerAdapter.close` (`db_adapters.py:360-363`): `conn.close()` on
every pooled connection in order (a raise aborts the loop), then
`executor.shutdown(wait=True)`. -/
def SQLServerAdapter_close (p : SqlServerPool) : Except String SqlServerPool := do
  let closed ← p.pool.mapM pyodbcConnectionClose
  pure { pool := closed, executorShutdown := true }

/-- The pool handle returned by `SQLServerAdapter.connect`: five freshly
opened connections and a live executor. -/
def freshSqlServerPool : SqlServerPool :=
  { pool := [true, true, true, true, true], executorShutdown := false }

/-! ## `db_adapters.py`: the SQLite driver's column description

`SQLiteAdapter.describe_table` (`db_adapters.py:407-420`) runs
`PRAGMA table_info(...)` and maps each pragma row
`(cid, name, type, notnull, dflt_value, pk)` to the uniform column
dictionary.  The rows the engine returned are the input of the model. -/

/-- One row of `PRAGMA table_info`: `row[1]` = name, `row[2]` = declared type,
`row[3]` = not-null flag (an integer, nonzero meaning NOT NULL),
`row[4]` = default value expression. -/
structure PragmaRow where
  cid : Nat
  name : String
  declType : String
  notnull : Nat
  dflt : Option String
  pk : Nat
deriving DecidableEq

/-- The uniform column dictionary assembled by the adapters. -/
structure ColumnInfo where
  name : String
  declType : String
  nullable : Bool
  dflt : Option String
  max_length : Option Nat
deriving DecidableEq

/-- The row-mapping of `SQLiteAdapter.describe_table`
(`db_adapters.py:411-420`): `nullable` is Python's `not row[3]` (the logical
negation of the truthiness of the not-null flag) and `max_length` is the
literal `None`. -/
def SQLiteAdapter_describe_table (rows : List PragmaRow) : List ColumnInfo :=
  rows.map fun r =>
    { name := r.name
      declType := r.declType
      nullable := !(r.notnull != 0)
      dflt := r.dflt
      max_length := none }

/-! ## `server.py`: configuration normalization

`MultiDatabaseMCPServer._normalize_config` (`server.py:217-258`) walks the
type-nested document `{backend-type: {logical-name: params}}`, rejects unknown
backend-type keys, rejects a type section whose value is not a dict, maps
aliases to canonical type names, and flattens into `{logical-name: params +
{"type": canonical}}`.  A logical-name entry whose value is not a dict is
skipped by the inner `isinstance(db_config, dict)` test.  (Apostrophes in the
source's f-strings are written `\x27` here.) -/

/-- The `known_types` list of `server.py:222`. -/
def knownTypes : List String :=
  ["postgresql", "postgres", "pg", "mysql", "mariadb", "sqlserver", "mssql",
    "sql server", "sqlite", "sqlite3"]

/-- The error raised for an unknown top-level key (`server.py:229-233`). -/
def unknownTypeMsg (db_type : String) : String :=
  "Unknown database type \x27" ++ db_type ++ "\x27. Expected one of: " ++
    String.intercalate ", " knownTypes ++
    ". Configuration must be nested by database type."

/-- The error raised when a type section's value is not a dict
(`server.py:252-256`). -/
def invalidValueMsg (db_type : String) : String :=
  "Invalid configuration for database type \x27" ++ db_type ++
    "\x27. Expected a dictionary of database connections."

/-- The alias mapping of `server.py:235-243` (applied to the lowercased key,
which is already known to be in `knownTypes`). -/
def resolveAlias (t : String) : String :=
  if t = "postgres" ∨ t = "pg" then "postgresql"
  else if t = "mariadb" then "mysql"
  else if t = "mssql" ∨ t = "sql server" then "sqlserver"
  else if t = "sqlite3" then "sqlite"
  else t

/-- One iteration of the inner loop of `server.py:245-251`: a dict-valued
logical-name entry is copied, given `"type": ty`, and stored in the
accumulator; any other entry is skipped. -/
def addSectionStep (ty : String) (m : List (String × JVal))
    (nc : String × JVal) : List (String × JVal) :=
  match nc.2 with
  | .obj fields => dictInsert m nc.1 (.obj (dictInsert fields "type" (.str ty)))
  | _ => m

/-- The inner loop of `server.py:245-251` over all entries of one type
section. -/
def addSection (acc : List (String × JVal)) (ty : String)
    (conns : List (String × JVal)) : List (String × JVal) :=
  conns.foldl (addSectionStep ty) acc

/-- One iteration of the outer loop of `_normalize_config`
(`server.py:224-256`). -/
def normalizeEntry (acc : List (String × JVal)) (e : String × JVal) :
    Except String (List (String × JVal)) :=
  let tl := strLower e.1
  if tl ∈ knownTypes then
    match e.2 with
    | .obj conns => .ok (addSection acc (resolveAlias tl) conns)
    | _ => .error (invalidValueMsg e.1)
  else
    .error (unknownTypeMsg e.1)

/-- The outer loop of `_normalize_config`, threading the accumulator. -/
def normalizeConfigAux (acc : List (String × JVal)) :
    List (String × JVal) → Except String (List (String × JVal))
  | [] => .ok acc
  | e :: rest =>
    match normalizeEntry acc e with
    | .error m => .error m
    | .ok acc' => normalizeConfigAux acc' rest

/-- `MultiDatabaseMCPServer._normalize_config` (`server.py:217-258`). -/
def normalizeConfig (raw : List (String × JVal)) :
    Except String (List (String × JVal)) :=
  normalizeConfigAux [] raw

/-! ## `server.py`: the connection manager

State and effects: `self.connections` / `self.adapters` are the two dicts of
the server object; the configuration file content (already parsed by
`json.load`) and the outcomes of `adapter.connect` and `adapter.execute_query`
are external oracles carried in `Env`.  Besides its `Except` outcome, every
operation returns the final server state and the trace of logical names for
which an `adapter.connect(...)` call was issued (one list element per connect
attempt, successful or not). -/

/-- The external world: the parsed configuration document, the outcome of a
connect attempt per logical name, and the rows a query yields on a given
pool. -/
structure Env where
  fileConfig : List (String × JVal)
  connectOutcome : String → Except String Nat
  queryResult : Nat → String → Except String JVal

/-- The mutable server object state: `self.connections` and `self.adapters`. -/
structure SrvState where
  connections : List (String × Nat)
  adapters : List (String × AdapterKind)

/-- `db_config.get("type", "postgresql")` (`server.py:202`, `server.py:278`);
the normalized configs always carry a string `"type"`. -/
def configType (cfg : JVal) : String :=
  match cfg with
  | .obj fields =>
    match dictLookup fields "type" with
    | some (.str t) => t
    | _ => "postgresql"
  | _ => "postgresql"

/-- One iteration of the pre-connect loop of `_load_database_connections`
(`server.py:276-285`): a name that already has a pool is skipped; otherwise
the driver is resolved and one connect is attempted, a failure being swallowed
with a warning. -/
def preconnectStep (env : Env) (acc : SrvState × List String)
    (e : String × JVal) : SrvState × List String :=
  let st := acc.1
  if (dictLookup st.connections e.1).isSome then acc
  else
    match get_adapter (strLower (configType e.2)) with
    | .error _ => acc
    | .ok ad =>
      match env.connectOutcome e.1 with
      | .ok p =>
        ({ connections := dictInsert st.connections e.1 p
           adapters := dictInsert st.adapters e.1 ad }, acc.2 ++ [e.1])
      | .error _ => (st, acc.2 ++ [e.1])

/-- `MultiDatabaseMCPServer._load_database_connections` (`server.py:260-285`):
normalize the file's document into `self.config`, then pre-connect every
configured name that has no pool yet, skipping failures. -/
def load_database_connections (env : Env) (st : SrvState) :
    Except String (List (String × JVal)) × SrvState × List String :=
  match normalizeConfig env.fileConfig with
  | .error m => (.error m, st, [])
  | .ok cfg =>
    let r := cfg.foldl (preconnectStep env) (st, [])
    (.ok cfg, r.1, r.2)

/-- The `NotFoundError` message of `server.py:193-197`; the available names
are rendered the way Python prints a list of strings. -/
def notFoundMsg (name : String) (available : List String) : String :=
  "Database \x27" ++ name ++ "\x27 not found in configuration. " ++
    "Available databases: [" ++
    String.intercalate ", " (available.map (fun s => "\x27" ++ s ++ "\x27")) ++
    "]"

/-- The wrapped `ConnectionError` message of `server.py:210-213`. -/
def failedConnectMsg (name cause : String) : String :=
  "Failed to connect to database \x27" ++ name ++ "\x27: " ++ cause ++
    ". Please check your connection settings."

/-- `MultiDatabaseMCPServer._ensure_connection` (`server.py:188-215`): reload
(and pre-connect) the configuration, fail if the name is unknown, reuse a live
pool, otherwise resolve the driver and attempt one connect, wrapping any
failure.  Returns (outcome, final state, connect-attempt trace). -/
def ensure_connection (env : Env) (st : SrvState) (name : String) :
    Except String (Nat × AdapterKind) × SrvState × List String :=
  match load_database_connections env st with
  | (.error m, st1, tr) => (.error m, st1, tr)
  | (.ok cfg, st1, tr) =>
    match dictLookup cfg name with
    | none => (.error (notFoundMsg name (dictKeys cfg)), st1, tr)
    | some dbCfg =>
      match dictLookup st1.connections name with
      | some p =>
        (.ok (p, (dictLookup st1.adapters name).getD .postgresql), st1, tr)
      | none =>
        match get_adapter (strLower (configType dbCfg)) with
        | .error e => (.error (failedConnectMsg name e), st1, tr)
        | .ok ad =>
          match env.connectOutcome name with
          | .error e => (.error (failedConnectMsg name e), st1, tr ++ [name])
          | .ok p =>
            (.ok (p, ad),
              { connections := dictInsert st1.connections name p
                adapters := dictInsert st1.adapters name ad },
              tr ++ [name])

/-! ## `server.py`: query dispatch and fan-out -/

/-- `MultiDatabaseMCPServer._query_database` (`server.py:315-328`): ensure the
connection, run the query through the adapter, serialize the rows.  The JSON
round-trip (`json.dumps` then `json.loads` in the fan-out) is the identity on
the row value. -/
def queryDatabase (env : Env) (st : SrvState) (name q : String) :
    Except String JVal × SrvState × List String :=
  match ensure_connection env st name with
  | (.error m, st1, tr) => (.error m, st1, tr)
  | (.ok (p, _), st1, tr) =>
    match env.queryResult p q with
    | .error m => (.error m, st1, tr)
    | .ok rows => (.ok rows, st1, tr)

/-- The per-name entry stored into `combined_result` (`server.py:417-423`):
an exception becomes `{"error": str(e)}`, a success contributes its parsed
row data. -/
def resultEntry : Except String JVal → JVal
  | .error e => .obj [("error", .str e)]
  | .ok v => v

/-- The aggregation loop of `_query_multiple_databases` (`server.py:416-423`):
`combined_result[db_name] = ...` for each input occurrence in order. -/
def combineResults (names : List String) (results : List (Except String JVal)) :
    List (String × JVal) :=
  (names.zip results).foldl
    (fun m p => dictInsert m p.1 (resultEntry p.2)) []

/-- `MultiDatabaseMCPServer._query_multiple_databases` (`server.py:404-428`):
one `_query_database` task per input occurrence (each modelled against the
incoming server state), gathered with `return_exceptions=True` and merged
keyed by name. -/
def queryMultipleDatabases (env : Env) (st : SrvState) (names : List String)
    (q : String) : List (String × JVal) :=
  combineResults names (names.map (fun n => (queryDatabase env st n q).1))

/-! ## Concrete test fixtures and counting helper -/

/-- Number of occurrences of a name in a connect-attempt trace. -/
def countOcc (l : List String) (s : String) : Nat :=
  match l with
  | [] => 0
  | x :: rest => (if x = s then 1 else 0) + countOcc rest s

/-- A world with one configured SQLite database whose backend refuses every
connect attempt. -/
def envC2 : Env :=
  { fileConfig := [("sqlite", .obj [("db1", .obj [])])]
    connectOutcome := fun _ => .error "boom"
    queryResult := fun _ _ => .error "unreachable" }

/-- A world with one configured SQLite database whose backend accepts the
connect attempt. -/
def envC2ok : Env :=
  { fileConfig := [("sqlite", .obj [("db1", .obj [])])]
    connectOutcome := fun _ => .ok 5
    queryResult := fun p _ => .ok (.num p) }

/-- A world with two configured SQLite databases `a` and `b` that connect
fine and answer every query with their pool id. -/
def envC3 : Env :=
  { fileConfig := [("sqlite", .obj [("a", .obj []), ("b", .obj [])])]
    connectOutcome := fun n =>
      if n = "a" then .ok 1 else if n = "b" then .ok 2 else .error "nope"
    queryResult := fun p _ => .ok (.num p) }

/-- A world with no configured databases at all. -/
def envC10 : Env :=
  { fileConfig := []
    connectOutcome := fun _ => .error "no such database"
    queryResult := fun _ _ => .error "no such database" }

/-! ## Dictionary lemmas -/

theorem dictLookup_eq_none_iff {α : Type} (m : List (String × α)) (k : String) :
    dictLookup m k = none ↔ (m.any (fun e => e.1 = k)) = false := by
  induction m with
  | nil => simp [dictLookup]
  | cons e rest ih =>
    by_cases h : e.1 = k <;> simp [dictLookup, h, ih]

theorem dictLookup_eq_none_of_not_mem {α : Type} (m : List (String × α))
    (k : String) (h : k ∉ dictKeys m) : dictLookup m k = none := by
  induction m with
  | nil => rfl
  | cons e rest ih =>
    simp only [dictKeys, List.map_cons, List.mem_cons] at h
    push_neg at h
    rw [dictLookup, if_neg (fun he => h.1 he.symm)]
    exact ih h.2

theorem dictLookup_append {α : Type} (m₁ m₂ : List (String × α)) (k : String) :
    dictLookup (m₁ ++ m₂) k =
      match dictLookup m₁ k with
      | some w => some w
      | none => dictLookup m₂ k := by
  induction m₁ with
  | nil => simp [dictLookup]
  | cons e rest ih =>
    by_cases h : e.1 = k <;> simp [dictLookup, h, ih]

theorem dictLookup_mapReplace {α : Type} (m : List (String × α))
    (k k' : String) (v : α) :
    dictLookup (m.map (fun e => if e.1 = k then (e.1, v) else e)) k' =
      if k' = k then (dictLookup m k).map (fun _ => v)
      else dictLookup m k' := by
  induction m with
  | nil => simp [dictLookup]
  | cons e rest ih =>
    by_cases he : e.1 = k
    · by_cases hk : k' = k
      · subst hk
        simp [dictLookup, he]
      · have hk2 : ¬ k = k' := fun hh => hk hh.symm
        simp [dictLookup, he, hk, hk2, ih]
    · by_cases hk : k' = k
      · subst hk
        simp [dictLookup, he, ih]
      · simp [dictLookup, he, hk, ih]

theorem dictLookup_dictInsert {α : Type} (m : List (String × α))
    (k k' : String) (v : α) :
    dictLookup (dictInsert m k v) k' =
      if k' = k then some v else dictLookup m k' := by
  by_cases hany : m.any (fun e => e.1 = k)
  · have hsome : dictLookup m k ≠ none := by
      intro h
      rw [dictLookup_eq_none_iff] at h
      rw [h] at hany
      exact absurd hany (by decide)
    rw [dictInsert, if_pos hany, dictLookup_mapReplace]
    by_cases hk : k' = k
    · subst hk
      cases h : dictLookup m k' with
      | none => exact absurd h hsome
      | some w => simp
    · simp [hk]
  · have hnone : dictLookup m k = none := by
      rw [dictLookup_eq_none_iff]
      cases hb : m.any (fun e => e.1 = k) with
      | false => rfl
      | true => exact absurd hb hany
    rw [dictInsert, if_neg hany, dictLookup_append]
    by_cases hk : k' = k
    · subst hk
      rw [hnone]
      simp [dictLookup]
    · cases h : dictLookup m k' with
      | none =>
        have hk2 : ¬ k = k' := fun hh => hk hh.symm
        simp [dictLookup, h, hk, hk2]
      | some w => simp [h, hk]

theorem dictKeys_dictInsert {α : Type} (m : List (String × α)) (k : String)
    (v : α) :
    dictKeys (dictInsert m k v) =
      if m.any (fun e => e.1 = k) then dictKeys m else dictKeys m ++ [k] := by
  by_cases h : m.any (fun e => e.1 = k)
  · simp only [dictInsert, h, if_true, dictKeys, List.map_map]
    congr 1
    funext e
    by_cases he : e.1 = k <;> simp [he, Function.comp]
  · simp [dictInsert, h, dictKeys]

theorem dictInsert_length {α : Type} (m : List (String × α)) (k : String)
    (v : α) :
    (dictInsert m k v).length =
      if m.any (fun e => e.1 = k) then m.length else m.length + 1 := by
  by_cases h : m.any (fun e => e.1 = k) <;> simp [dictInsert, h]

/-! ## Helper lemmas -/

theorem JVal.isObj_iff (v : JVal) : v.isObj = true ↔ ∃ fs, v = .obj fs := by
  cases v <;> simp [JVal.isObj]

/-! ## Claim C1 -/

/-- **C1.** The claim says the MySQL driver's `list_tables` issues the catalog
query against `information_schema.tables` exactly once per call and never a
second time.  The code (`db_adapters.py:162-163`) calls
`cur.execute(query, params)` and then `cur.execute(query)` again, so with a
resolved schema `"mydb"` the catalog query is executed twice in one call, the
second time with no bind parameters. -/
theorem c1_mysql_list_tables_double_execution :
    (MySQLAdapter_list_tables_executes (some "mydb")).length = 2 ∧
    MySQLAdapter_list_tables_executes (some "mydb") =
      [(mysqlListTablesQuerySchema, some ["mydb"]),
       (mysqlListTablesQuerySchema, none)] :=
  ⟨rfl, rfl⟩

/-! ## Claim C5 -/

/-- **C5.** The claim says `close()` on an already-closed pool handle never
raises, for every backend driver.  `SQLServerAdapter.close`
(`db_adapters.py:360-363`) re-invokes pyodbc's `Connection.close()` on every
pooled connection with no closed-state guard; on the second `close()` of the
handle the first pooled connection is already closed, so pyodbc raises.  The
first close of a fresh five-connection pool succeeds, the second raises. -/
theorem c5_double_close_raises :
    (SQLServerAdapter_close freshSqlServerPool).isOk = true ∧
    (SQLServerAdapter_close freshSqlServerPool).bind SQLServerAdapter_close =
      Except.error "Attempt to use a closed connection." :=
  ⟨rfl, rfl⟩

/-! ## Claim C7 -/

/-- **C7.** Every column produced by the SQLite driver's `describe_table`
carries `nullable = not row[3]` — the logical negation of the pragma's
not-null flag, so a NOT NULL column (`notnull ≠ 0`) yields `nullable = false`
— and `max_length` is always `None` (`db_adapters.py:411-420`). -/
theorem c7_sqlite_describe_table_nullable_maxlength
    (rows : List PragmaRow) (i : Nat) (r : PragmaRow)
    (hi : rows.get? i = some r) :
    ∃ c, (SQLiteAdapter_describe_table rows).get? i = some c ∧
      c.name = r.name ∧ c.nullable = (r.notnull == 0) ∧
      (r.notnull ≠ 0 → c.nullable = false) ∧ c.max_length = none := by
  have hc : (SQLiteAdapter_describe_table rows).get? i =
      some { name := r.name, declType := r.declType,
             nullable := !(r.notnull != 0), dflt := r.dflt,
             max_length := none } := by
    simp only [SQLiteAdapter_describe_table, List.get?_map, hi,
      Option.map_some']
  refine ⟨_, hc, rfl, Bool.not_not _, ?_, rfl⟩
  intro h
  exact (Bool.not_not _).trans (by simpa using h)

/-- Witness for C7: a NOT NULL integer column yields `nullable = false` and a
null `max_length`. -/
theorem c7_sqlite_describe_table_nullable_maxlength_witness :
    ([⟨0, "id", "INTEGER", 1, none, 1⟩] :
        List PragmaRow).get? 0 = some ⟨0, "id", "INTEGER", 1, none, 1⟩ ∧
    ∃ c, (SQLiteAdapter_describe_table
        [⟨0, "id", "INTEGER", 1, none, 1⟩]).get? 0 = some c ∧
      c.name = "id" ∧ c.nullable = ((1 : Nat) == 0) ∧
      ((1 : Nat) ≠ 0 → c.nullable = false) ∧ c.max_length = none :=
  ⟨rfl, c7_sqlite_describe_table_nullable_maxlength
    [⟨0, "id", "INTEGER", 1, none, 1⟩] 0 ⟨0, "id", "INTEGER", 1, none, 1⟩ rfl⟩

/-! ## Claim C8 -/

/-- **C8.** `get_adapter` resolves every spelling of the same backend,
case-insensitively, to the same driver: the PostgreSQL aliases to the
PostgreSQL driver, the MySQL aliases to the MySQL driver, the SQL Server
aliases to the SQL Server driver, the SQLite aliases to the SQLite driver;
every other token fails with the `Unsupported database type` error, whose
text names the token and lists the supported types
(`db_adapters.py:431-444`). -/
theorem c8_get_adapter_alias_resolution (s : String) :
    (strLower s ∈ ["postgres", "postgresql", "pg"] →
      get_adapter s = .ok .postgresql) ∧
    (strLower s ∈ ["mysql", "mariadb"] → get_adapter s = .ok .mysql) ∧
    (strLower s ∈ ["sqlserver", "mssql", "sql server"] →
      get_adapter s = .ok .sqlserver) ∧
    (strLower s ∈ ["sqlite", "sqlite3"] → get_adapter s = .ok .sqlite) ∧
    (strLower s ∉ knownTypes →
      get_adapter s = .error (unsupportedMsg s) ∧
      ∃ a b, unsupportedMsg s = a ++ s ++ b ∧
        b = ". Supported types: postgresql, mysql, sqlserver, sqlite") := by
  refine ⟨?_, ?_, ?_, ?_, ?_⟩
  · intro h
    simp only [get_adapter]
    rw [if_pos h]
  · intro h
    simp only [get_adapter]
    rcases (by simpa using h : strLower s = "mysql" ∨ strLower s = "mariadb") with
      h1 | h1 <;> rw [h1] <;> rfl
  · intro h
    simp only [get_adapter]
    rcases (by simpa using h :
        strLower s = "sqlserver" ∨ strLower s = "mssql" ∨
          strLower s = "sql server") with h1 | h1 | h1 <;> rw [h1] <;> rfl
  · intro h
    simp only [get_adapter]
    rcases (by simpa using h : strLower s = "sqlite" ∨ strLower s = "sqlite3")
      with h1 | h1 <;> rw [h1] <;> rfl
  · intro h
    simp only [knownTypes, List.mem_cons, List.not_mem_nil, or_false,
      not_or] at h
    obtain ⟨h1, h2, h3, h4, h5, h6, h7, h8, h9, h10⟩ := h
    refine ⟨?_, "Unsupported database type: ", _, rfl, rfl⟩
    simp only [get_adapter]
    rw [if_neg (by simp [h1, h2, h3]), if_neg (by simp [h4, h5]),
      if_neg (by simp [h6, h7, h8]), if_neg (by simp [h9, h10])]

/-- Witness for C8: mixed-case aliases of each backend resolve, and an
unknown token is rejected with the message naming it. -/
theorem c8_get_adapter_alias_resolution_witness :
    get_adapter "PG" = .ok .postgresql ∧
    get_adapter "MariaDB" = .ok .mysql ∧
    get_adapter "Sql Server" = .ok .sqlserver ∧
    get_adapter "SQLITE3" = .ok .sqlite ∧
    get_adapter "oracle" = .error (unsupportedMsg "oracle") :=
  ⟨(c8_get_adapter_alias_resolution "PG").1 (by decide),
   (c8_get_adapter_alias_resolution "MariaDB").2.1 (by decide),
   (c8_get_adapter_alias_resolution "Sql Server").2.2.1 (by decide),
   (c8_get_adapter_alias_resolution "SQLITE3").2.2.2.1 (by decide),
   ((c8_get_adapter_alias_resolution "oracle").2.2.2.2 (by decide)).1⟩

/-! ## Claim C9 -/

/-- **C9.** For the SQL Server and SQLite drivers, each acquisition returns
the pool entry at the current shared cursor and advances the cursor to
`(index + 1) mod pool size`, so `k` acquisitions starting at cursor `i` hand
out entries `i, i+1, ..., i+k-1`, each modulo the pool size
(`db_adapters.py:302-307` and `db_adapters.py:383-388`; the two drivers share
the identical body). -/
theorem c9_round_robin_deterministic (p : RRPool) (k : Nat)
    (h0 : 0 < p.pool.length) (hc : p.current < p.pool.length) :
    (acquireSeq k p).1 =
      (List.range k).map
        (fun j => p.pool.getD ((p.current + j) % p.pool.length) 0) ∧
    (acquireSeq k p).2.pool = p.pool ∧
    (acquireSeq k p).2.current = (p.current + k) % p.pool.length ∧
    SQLiteAdapter_get_connection = SQLServerAdapter_get_connection := by
  induction k generalizing p with
  | zero =>
    refine ⟨rfl, rfl, ?_, rfl⟩
    simp [acquireSeq, Nat.mod_eq_of_lt hc]
  | succ k ih =>
    have hc' : (p.current + 1) % p.pool.length < p.pool.length :=
      Nat.mod_lt _ h0
    obtain ⟨ih1, ih2, ih3, -⟩ :=
      ih ⟨p.pool, (p.current + 1) % p.pool.length⟩ h0 hc'
    refine ⟨?_, ih2, ?_, rfl⟩
    · simp only [acquireSeq]
      rw [List.range_succ_eq_map, List.map_cons]
      refine congrArg₂ List.cons ?_ ?_
      · simp [SQLServerAdapter_get_connection, Nat.mod_eq_of_lt hc]
      · rw [show (SQLServerAdapter_get_connection p).2 =
            (⟨p.pool, (p.current + 1) % p.pool.length⟩ : RRPool) from rfl]
        rw [ih1, List.map_map]
        refine List.map_congr_left ?_
        intro j _
        have harith : ((p.current + 1) % p.pool.length + j) % p.pool.length =
            (p.current + (j + 1)) % p.pool.length := by
          rw [Nat.mod_add_mod]
          congr 1
          omega
        simp [Function.comp, harith, Nat.succ_eq_add_one]
    · simp only [acquireSeq]
      rw [show (SQLServerAdapter_get_connection p).2 =
          (⟨p.pool, (p.current + 1) % p.pool.length⟩ : RRPool) from rfl]
      rw [ih3, Nat.mod_add_mod]
      congr 1
      omega

/-- Witness for C9: four acquisitions from a three-entry pool starting at
cursor 1 hand out entries 1, 2, 0, 1 and leave the cursor at 2. -/
theorem c9_round_robin_deterministic_witness :
    0 < ([10, 20, 30] : List Nat).length ∧ 1 < ([10, 20, 30] : List Nat).length ∧
    (acquireSeq 4 ⟨[10, 20, 30], 1⟩).1 = [20, 30, 10, 20] ∧
    (acquireSeq 4 ⟨[10, 20, 30], 1⟩).2.current = 2 :=
  ⟨by decide, by decide,
   ((c9_round_robin_deterministic ⟨[10, 20, 30], 1⟩ 4 (by decide)
      (by decide)).1).trans (by rfl),
   ((c9_round_robin_deterministic ⟨[10, 20, 30], 1⟩ 4 (by decide)
      (by decide)).2.2.1).trans (by rfl)⟩

/-! ## Normalizer lemmas (used by C2, C4, C6) -/

theorem addSectionStep_not_obj (ty : String) (m : List (String × JVal))
    (nc : String × JVal) (h : nc.2.isObj = false) :
    addSectionStep ty m nc = m := by
  cases hv : nc.2
  case obj fs =>
    rw [hv] at h
    simp [JVal.isObj] at h
  all_goals simp [addSectionStep, hv]

theorem addSectionStep_obj (ty : String) (m : List (String × JVal))
    (nc : String × JVal) (fs : List (String × JVal)) (h : nc.2 = .obj fs) :
    addSectionStep ty m nc =
      dictInsert m nc.1 (.obj (dictInsert fs "type" (.str ty))) := by
  simp [addSectionStep, h]

/-- Processing a prefix of well-formed sections (known type, dict value)
never aborts: the outer loop reaches whatever follows with some
accumulator. -/
theorem normalizeConfigAux_append_good (pre : List (String × JVal))
    (hpre : ∀ e ∈ pre, strLower e.1 ∈ knownTypes ∧ e.2.isObj = true) :
    ∀ (acc l : List (String × JVal)),
      ∃ acc', normalizeConfigAux acc (pre ++ l) = normalizeConfigAux acc' l := by
  induction pre with
  | nil => exact fun acc l => ⟨acc, rfl⟩
  | cons e pre' ih =>
    intro acc l
    obtain ⟨h1, h2⟩ := hpre e (List.mem_cons_self e pre')
    obtain ⟨conns, hconns⟩ := (JVal.isObj_iff e.2).mp h2
    have hrec := ih (fun x hx => hpre x (List.mem_cons_of_mem _ hx))
      (addSection acc (resolveAlias (strLower e.1)) conns) l
    simpa only [List.cons_append, normalizeConfigAux, normalizeEntry, hconns,
      h1, if_true, ite_true] using hrec

/-- Logical-name entries of a section whose values are all non-dicts
contribute nothing to the accumulated map. -/
theorem addSection_lookup_drop (name ty : String) :
    ∀ (conns : List (String × JVal)),
      (∀ w, (name, w) ∈ conns → w.isObj = false) →
      ∀ acc, dictLookup (addSection acc ty conns) name = dictLookup acc name := by
  intro conns
  induction conns with
  | nil => intro _ acc; rfl
  | cons nc rest ih =>
    intro hinner acc
    have hrest : ∀ w, (name, w) ∈ rest → w.isObj = false :=
      fun w hw => hinner w (List.mem_cons_of_mem _ hw)
    have hstep : addSection acc ty (nc :: rest) =
        addSection (addSectionStep ty acc nc) ty rest := by
      simp [addSection]
    rw [hstep, ih hrest]
    by_cases hobj : nc.2.isObj = true
    · obtain ⟨fs, hfs⟩ := (JVal.isObj_iff nc.2).mp hobj
      have hne : nc.1 ≠ name := by
        intro he
        have hmem : (name, JVal.obj fs) ∈ nc :: rest := by
          rw [← he, ← hfs]
          exact List.mem_cons_self _ _
        have := hinner _ hmem
        simp [JVal.isObj] at this
      rw [addSectionStep_obj ty acc nc fs hfs, dictLookup_dictInsert]
      exact if_neg (fun h => hne h.symm)
    · rw [addSectionStep_not_obj ty acc nc (by simpa using hobj)]

/-! ## Claim C6 -/

/-- **C6.** A top-level key that does not resolve to a known backend-type
alias makes the whole load fail with the `ConfigError` whose text names the
offending key and lists the allowed type tokens (`server.py:228-233`); this
holds for any position of the key provided the document's earlier sections
are themselves well-formed (otherwise the load still fails, but with the
earlier section's error). -/
theorem c6_unknown_type_rejected (pre rest : List (String × JVal)) (k : String)
    (v : JVal) (hk : strLower k ∉ knownTypes)
    (hpre : ∀ e ∈ pre, strLower e.1 ∈ knownTypes ∧ e.2.isObj = true) :
    normalizeConfig (pre ++ (k, v) :: rest) = .error (unknownTypeMsg k) ∧
    (∃ a b, unknownTypeMsg k = a ++ k ++ b) ∧
    (∃ a b, unknownTypeMsg k =
      a ++ String.intercalate ", " knownTypes ++ b) := by
  refine ⟨?_, ?_, ?_⟩
  · obtain ⟨acc', hacc⟩ :=
      normalizeConfigAux_append_good pre hpre [] ((k, v) :: rest)
    rw [normalizeConfig, hacc]
    simp only [normalizeConfigAux, normalizeEntry]
    rw [if_neg hk]
  · refine ⟨"Unknown database type \x27",
      "\x27. Expected one of: " ++ String.intercalate ", " knownTypes ++
        ". Configuration must be nested by database type.", ?_⟩
    simp [unknownTypeMsg, String.append_assoc]
  · exact ⟨"Unknown database type \x27" ++ k ++ "\x27. Expected one of: ",
      ". Configuration must be nested by database type.", rfl⟩

/-- Witness for C6: the document `{"postgresql": {"db1": {}}, "oracle": {}}`
is rejected with the message naming `"oracle"`. -/
theorem c6_unknown_type_rejected_witness :
    normalizeConfig [("postgresql", JVal.obj [("db1", JVal.obj [])]),
        ("oracle", JVal.obj [])] = .error (unknownTypeMsg "oracle") :=
  (c6_unknown_type_rejected [("postgresql", JVal.obj [("db1", JVal.obj [])])]
    [] "oracle" (JVal.obj []) (by decide) (by decide)).1

/-! ## Claim C4 (counterexample part) -/

/-- **C4, counterexample.** The claim says a configuration whose
logical-name entry's value is not a mapping makes the whole load fail and is
never silently dropped.  On the document
`{"postgresql": {"db1": []}}` the normalizer *succeeds* and returns the empty
map: the inner `isinstance(db_config, dict)` test (`server.py:247`) has no
`else`, so `db1` is silently dropped. -/
theorem c4_entry_dropped_counterexample :
    normalizeConfig [("postgresql", JVal.obj [("db1", JVal.arr [])])] =
      .ok [] := rfl

/-- **C4, amended.** What the code actually enforces: a backend-type
*section* whose value is not a mapping fails the whole load with the
`Invalid configuration` error (`server.py:252-256`), but a *logical-name*
entry whose value is not a mapping is silently dropped — the load succeeds
and the normalized map simply has no entry for that name
(`server.py:247`, an `if` with no `else`). -/
theorem c4_section_fails_entry_dropped (pre rest : List (String × JVal))
    (t : String) (v : JVal) (conns : List (String × JVal)) (name : String)
    (hk : strLower t ∈ knownTypes) (hv : v.isObj = false)
    (hpre : ∀ e ∈ pre, strLower e.1 ∈ knownTypes ∧ e.2.isObj = true)
    (hinner : ∀ w, (name, w) ∈ conns → w.isObj = false) :
    normalizeConfig (pre ++ (t, v) :: rest) = .error (invalidValueMsg t) ∧
    ∃ m, normalizeConfig [(t, JVal.obj conns)] = .ok m ∧
      dictLookup m name = none := by
  constructor
  · obtain ⟨acc', hacc⟩ :=
      normalizeConfigAux_append_good pre hpre [] ((t, v) :: rest)
    rw [normalizeConfig, hacc]
    cases v with
    | obj fs => simp [JVal.isObj] at hv
    | str s => simp [normalizeConfigAux, normalizeEntry, hk]
    | num n => simp [normalizeConfigAux, normalizeEntry, hk]
    | bool b => simp [normalizeConfigAux, normalizeEntry, hk]
    | null => simp [normalizeConfigAux, normalizeEntry, hk]
    | arr es => simp [normalizeConfigAux, normalizeEntry, hk]
  · refine ⟨addSection [] (resolveAlias (strLower t)) conns, ?_, ?_⟩
    · simp [normalizeConfig, normalizeConfigAux, normalizeEntry, hk]
    · rw [addSection_lookup_drop name (resolveAlias (strLower t)) conns
        hinner []]
      rfl

/-- Witness for the amended C4: `{"postgresql": []}` fails the load, while
`{"postgresql": {"db1": 5}}` loads successfully with `db1` dropped. -/
theorem c4_section_fails_entry_dropped_witness :
    normalizeConfig [("postgresql", JVal.arr [])] =
      .error (invalidValueMsg "postgresql") ∧
    ∃ m, normalizeConfig [("postgresql", JVal.obj [("db1", JVal.num 5)])] =
      .ok m ∧ dictLookup m "db1" = none :=
  c4_section_fails_entry_dropped [] [] "postgresql" (JVal.arr [])
    [("db1", JVal.num 5)] "db1" (by decide) rfl
    (by intro e he; exact absurd he (List.not_mem_nil e))
    (by
      intro w hw
      have h := List.mem_singleton.mp hw
      injection h with h1 h2
      rw [h2]
      rfl)

/-! ## Fan-out lemmas (used by C3 and C10) -/

/-- The aggregation loop looks a name up to the *last* input occurrence with
that name (`combined_result[db_name] = ...` overwrites in order). -/
theorem combineFold_lookup (l : List (String × Except String JVal)) :
    ∀ (m : List (String × JVal)) (k : String),
      dictLookup (l.foldl (fun m p => dictInsert m p.1 (resultEntry p.2)) m) k =
        match dictLookup l.reverse k with
        | some r => some (resultEntry r)
        | none => dictLookup m k := by
  induction l with
  | nil => intro m k; rfl
  | cons p rest ih =>
    intro m k
    rw [List.foldl_cons, ih, List.reverse_cons, dictLookup_append]
    cases h : dictLookup rest.reverse k with
    | some r => rfl
    | none =>
      rw [dictLookup_dictInsert]
      by_cases hk : k = p.1
      · subst hk
        simp [dictLookup]
      · have hk2 : ¬ p.1 = k := fun hh => hk hh.symm
        simp [dictLookup, hk, hk2]

theorem dictLookup_map_self {β : Type} (f : String → β) :
    ∀ (ns : List String) (n : String), n ∈ ns →
      dictLookup (ns.map (fun m => (m, f m))) n = some (f n) := by
  intro ns
  induction ns with
  | nil => intro n hn; exact absurd hn (List.not_mem_nil n)
  | cons m0 rest ih =>
    intro n hn
    by_cases h : m0 = n
    · subst h
      simp [dictLookup]
    · rcases List.mem_cons.mp hn with h1 | h1
      · exact absurd h1.symm h
      · simp [dictLookup, h, ih n h1]

theorem zip_map_self {β : Type} (f : String → β) :
    ∀ ns : List String, ns.zip (ns.map f) = ns.map (fun m => (m, f m)) := by
  intro ns
  induction ns with
  | nil => rfl
  | cons m rest ih => simp [List.zip_cons_cons, ih]

/-- Folding distinct fresh names into the result map adds one entry each. -/
theorem combineFold_length (l : List (String × Except String JVal)) :
    ∀ m, ((l.map (fun p => p.1)).Nodup) →
      (∀ p ∈ l, dictLookup m p.1 = none) →
      (l.foldl (fun m p => dictInsert m p.1 (resultEntry p.2)) m).length =
        m.length + l.length := by
  induction l with
  | nil => intro m _ _; simp
  | cons p rest ih =>
    intro m hnd hfresh
    rw [List.foldl_cons]
    have hpm : dictLookup m p.1 = none := hfresh p (List.mem_cons_self _ _)
    have hany : (m.any (fun e => e.1 = p.1)) = false :=
      (dictLookup_eq_none_iff m p.1).mp hpm
    rw [List.map_cons, List.nodup_cons] at hnd
    have hfresh' : ∀ q ∈ rest,
        dictLookup (dictInsert m p.1 (resultEntry p.2)) q.1 = none := by
      intro q hq
      rw [dictLookup_dictInsert]
      have hne : q.1 ≠ p.1 := by
        intro he
        apply hnd.1
        rw [← he]
        exact List.mem_map_of_mem _ hq
      rw [if_neg hne]
      exact hfresh q (List.mem_cons_of_mem _ hq)
    rw [ih _ hnd.2 hfresh', dictInsert_length, hany]
    simp only [Bool.false_eq_true, if_false, List.length_cons]
    omega

/-- The result map never has two entries with the same key. -/
theorem combineFold_keys_nodup (l : List (String × Except String JVal)) :
    ∀ m, (dictKeys m).Nodup →
      (dictKeys (l.foldl
        (fun m p => dictInsert m p.1 (resultEntry p.2)) m)).Nodup := by
  induction l with
  | nil => intro m h; exact h
  | cons p rest ih =>
    intro m h
    rw [List.foldl_cons]
    apply ih
    rw [dictKeys_dictInsert]
    by_cases hany : m.any (fun e => e.1 = p.1)
    · rw [if_pos hany]
      exact h
    · rw [if_neg hany]
      have hnm : p.1 ∉ dictKeys m := by
        intro hmem
        simp only [dictKeys, List.mem_map] at hmem
        obtain ⟨e, he, hee⟩ := hmem
        have : m.any (fun e => e.1 = p.1) = true :=
          List.any_eq_true.mpr ⟨e, he, by simp [hee]⟩
        exact absurd this (by simpa using hany)
      simp [List.nodup_append, h, hnm]

/-- The result map has at most one entry per input occurrence. -/
theorem combineFold_length_le (l : List (String × Except String JVal)) :
    ∀ m, (l.foldl (fun m p => dictInsert m p.1 (resultEntry p.2)) m).length ≤
      m.length + l.length := by
  induction l with
  | nil => intro m; simp
  | cons p rest ih =>
    intro m
    rw [List.foldl_cons]
    refine le_trans (ih _) ?_
    rw [dictInsert_length]
    by_cases h : m.any (fun e => e.1 = p.1)
    · rw [if_pos h]
      simp
    · rw [if_neg h]
      simp
      omega

theorem dictLookup_of_mem_keys {α : Type} (m : List (String × α)) (k : String)
    (h : k ∈ dictKeys m) : ∃ w, dictLookup m k = some w := by
  induction m with
  | nil => simp [dictKeys] at h
  | cons e rest ih =>
    by_cases he : e.1 = k
    · exact ⟨e.2, by simp [dictLookup, he]⟩
    · have hk : k ∈ dictKeys rest := by
        simp only [dictKeys, List.map_cons, List.mem_cons] at h
        rcases h with h | h
        · exact absurd h.symm he
        · exact h
      obtain ⟨w, hw⟩ := ih hk
      exact ⟨w, by simp [dictLookup, he, hw]⟩

/-! ## Claim C3 -/

/-- **C3.** `_query_multiple_databases` (`server.py:404-428`) returns a map
keyed by logical name in which each name is bound to the outcome of *its own*
`_query_database` run — its row result on success, the `error` object carrying
the exception text on failure — so no name's failure can change any other
name's entry; with distinct input names the map has exactly one entry per
name. -/
theorem c3_fanout_per_name_isolation (env : Env) (st : SrvState) (q : String)
    (ns : List String) (n : String) (hmem : n ∈ ns) :
    dictLookup (queryMultipleDatabases env st ns q) n =
      some (resultEntry (queryDatabase env st n q).1) ∧
    (ns.Nodup → (queryMultipleDatabases env st ns q).length = ns.length) := by
  constructor
  · rw [queryMultipleDatabases, combineResults,
      zip_map_self (fun m => (queryDatabase env st m q).1) ns,
      combineFold_lookup,
      (List.map_reverse (fun m => (m, (queryDatabase env st m q).1)) ns).symm,
      dictLookup_map_self (fun m => (queryDatabase env st m q).1) ns.reverse n
        (List.mem_reverse.mpr hmem)]
  · intro hnd
    rw [queryMultipleDatabases, combineResults,
      zip_map_self (fun m => (queryDatabase env st m q).1) ns]
    have hkeys : ((ns.map (fun m => (m, (queryDatabase env st m q).1))).map
        (fun p => p.1)) = ns := by
      rw [List.map_map]
      exact List.map_id ns
    have hfresh : ∀ p ∈ ns.map (fun m => (m, (queryDatabase env st m q).1)),
        dictLookup ([] : List (String × JVal)) p.1 = none := fun p _ => rfl
    rw [combineFold_length _ [] (by rw [hkeys]; exact hnd) hfresh]
    simp

/-- Witness for C3: of three names `a`, `b`, `c` where `c` has no
configuration entry, the fan-out returns a three-entry map in which `c` is
bound to the error object and `a`, `b` carry their row data. -/
theorem c3_fanout_per_name_isolation_witness :
    dictLookup (queryMultipleDatabases envC3 ⟨[], []⟩ ["a", "b", "c"] "SELECT 1")
        "c" = some (resultEntry (queryDatabase envC3 ⟨[], []⟩ "c" "SELECT 1").1) ∧
    (queryMultipleDatabases envC3 ⟨[], []⟩ ["a", "b", "c"] "SELECT 1").length = 3 ∧
    queryMultipleDatabases envC3 ⟨[], []⟩ ["a", "b", "c"] "SELECT 1" =
      [("a", .num 1), ("b", .num 2),
       ("c", .obj [("error", .str (notFoundMsg "c" ["a", "b"]))])] :=
  ⟨(c3_fanout_per_name_isolation envC3 ⟨[], []⟩ "SELECT 1" ["a", "b", "c"] "c"
      (by decide)).1,
   (c3_fanout_per_name_isolation envC3 ⟨[], []⟩ "SELECT 1" ["a", "b", "c"] "c"
      (by decide)).2 (by decide),
   by rfl⟩

/-! ## Claim C10 -/

/-- **C10.** The fan-out's result map is keyed by logical name
(`server.py:416-423`): a duplicated input name collapses to one entry whose
value is the outcome of the *last* occurrence (`dictLookup` on the reversed
name/outcome pairing), the map's keys are duplicate-free, and the map can
have fewer entries than the input list — while one `_query_database` task is
still launched per input occurrence (`server.py:410-412`). -/
theorem c10_duplicate_names_last_wins (env : Env) (st : SrvState) (q : String)
    (ns : List String) (results : List (Except String JVal)) (n : String)
    (hlen : results.length = ns.length) (hmem : n ∈ ns) :
    queryMultipleDatabases env st ns q =
      combineResults ns (ns.map (fun m => (queryDatabase env st m q).1)) ∧
    (ns.map (fun m => (queryDatabase env st m q).1)).length = ns.length ∧
    (∃ r, dictLookup (ns.zip results).reverse n = some r ∧
      dictLookup (combineResults ns results) n = some (resultEntry r)) ∧
    (dictKeys (combineResults ns results)).Nodup ∧
    (combineResults ns results).length ≤ ns.length := by
  refine ⟨rfl, List.length_map ns _, ?_, ?_, ?_⟩
  · have hk : n ∈ dictKeys (ns.zip results).reverse := by
      have hfst : (ns.zip results).map (fun p => p.1) = ns :=
        List.map_fst_zip ns results (le_of_eq hlen.symm)
      rw [dictKeys, List.map_reverse, hfst]
      exact List.mem_reverse.mpr hmem
    obtain ⟨r, hr⟩ := dictLookup_of_mem_keys _ n hk
    refine ⟨r, hr, ?_⟩
    rw [combineResults, combineFold_lookup, hr]
  · exact combineFold_keys_nodup _ [] List.nodup_nil
  · refine le_trans (combineFold_length_le _ []) ?_
    simp [List.length_zip]

/-- Witness for C10: the duplicated input `["a", "b", "a"]` yields a
two-entry map in which `a` carries the third (last) occurrence's outcome. -/
theorem c10_duplicate_names_last_wins_witness :
    (∃ r, dictLookup ((["a", "b", "a"].zip
        [Except.ok (JVal.num 1), Except.ok (JVal.num 2),
         Except.ok (JVal.num 3)]).reverse) "a" = some r ∧
      dictLookup (combineResults ["a", "b", "a"]
        [Except.ok (JVal.num 1), Except.ok (JVal.num 2),
         Except.ok (JVal.num 3)]) "a" = some (resultEntry r)) ∧
    combineResults ["a", "b", "a"]
        [Except.ok (JVal.num 1), Except.ok (JVal.num 2),
         Except.ok (JVal.num 3)] =
      [("a", JVal.num 3), ("b", JVal.num 2)] ∧
    (combineResults ["a", "b", "a"]
        [Except.ok (JVal.num 1), Except.ok (JVal.num 2),
         Except.ok (JVal.num 3)]).length ≤ 3 :=
  ⟨(c10_duplicate_names_last_wins envC10 ⟨[], []⟩ "SELECT 1" ["a", "b", "a"]
      [Except.ok (JVal.num 1), Except.ok (JVal.num 2), Except.ok (JVal.num 3)]
      "a" rfl (by decide)).2.2.1,
   by rfl,
   (c10_duplicate_names_last_wins envC10 ⟨[], []⟩ "SELECT 1" ["a", "b", "a"]
      [Except.ok (JVal.num 1), Except.ok (JVal.num 2), Except.ok (JVal.num 3)]
      "a" rfl (by decide)).2.2.2.2⟩

/-! ## Normalizer invariants and preconnect lemmas (used by C2) -/

theorem countOcc_append (l1 l2 : List String) (s : String) :
    countOcc (l1 ++ l2) s = countOcc l1 s + countOcc l2 s := by
  induction l1 with
  | nil => simp [countOcc]
  | cons x rest ih => simp [countOcc, ih, Nat.add_assoc]

theorem countOcc_single_ne (x s : String) (h : x ≠ s) :
    countOcc [x] s = 0 := by
  simp [countOcc, h]

theorem resolveAlias_canonical (t : String) (h : t ∈ knownTypes) :
    resolveAlias t ∈ ["postgresql", "mysql", "sqlserver", "sqlite"] := by
  simp only [knownTypes, List.mem_cons, List.not_mem_nil, or_false] at h
  rcases h with rfl | rfl | rfl | rfl | rfl | rfl | rfl | rfl | rfl | rfl <;>
    decide

theorem get_adapter_canonical (t : String)
    (h : t ∈ ["postgresql", "mysql", "sqlserver", "sqlite"]) :
    ∃ ad, get_adapter (strLower t) = .ok ad := by
  simp only [List.mem_cons, List.not_mem_nil, or_false] at h
  rcases h with rfl | rfl | rfl | rfl
  · exact ⟨.postgresql, rfl⟩
  · exact ⟨.mysql, rfl⟩
  · exact ⟨.sqlserver, rfl⟩
  · exact ⟨.sqlite, rfl⟩

theorem normalizeConfigAux_cons_obj (acc : List (String × JVal))
    (e : String × JVal) (rest conns : List (String × JVal))
    (hk : strLower e.1 ∈ knownTypes) (hv : e.2 = .obj conns) :
    normalizeConfigAux acc (e :: rest) =
      normalizeConfigAux (addSection acc (resolveAlias (strLower e.1)) conns)
        rest := by
  simp [normalizeConfigAux, normalizeEntry, hk, hv]

theorem normalizeConfigAux_cons_bad_value (acc : List (String × JVal))
    (e : String × JVal) (rest : List (String × JVal))
    (hk : strLower e.1 ∈ knownTypes) (hv : e.2.isObj = false) :
    normalizeConfigAux acc (e :: rest) = .error (invalidValueMsg e.1) := by
  cases hval : e.2
  case obj fs =>
    rw [hval] at hv
    simp [JVal.isObj] at hv
  all_goals simp [normalizeConfigAux, normalizeEntry, hk, hval]

theorem normalizeConfigAux_cons_unknown (acc : List (String × JVal))
    (e : String × JVal) (rest : List (String × JVal))
    (hk : strLower e.1 ∉ knownTypes) :
    normalizeConfigAux acc (e :: rest) = .error (unknownTypeMsg e.1) := by
  simp [normalizeConfigAux, normalizeEntry, hk]

/-- Every value stored by a section carries a canonical `"type"` string. -/
theorem addSection_configType (ty : String) :
    ∀ (conns acc : List (String × JVal)),
      (∀ n w, dictLookup acc n = some w →
        configType w ∈ ["postgresql", "mysql", "sqlserver", "sqlite"]) →
      ty ∈ ["postgresql", "mysql", "sqlserver", "sqlite"] →
      ∀ n w, dictLookup (addSection acc ty conns) n = some w →
        configType w ∈ ["postgresql", "mysql", "sqlserver", "sqlite"] := by
  intro conns
  induction conns with
  | nil => intro acc hacc _; exact hacc
  | cons nc rest ih =>
    intro acc hacc hty n w
    have hstep : addSection acc ty (nc :: rest) =
        addSection (addSectionStep ty acc nc) ty rest := by
      simp [addSection]
    rw [hstep]
    refine ih (addSectionStep ty acc nc) ?_ hty n w
    intro n2 w2 hlk
    by_cases hobj : nc.2.isObj = true
    · obtain ⟨fs, hfs⟩ := (JVal.isObj_iff nc.2).mp hobj
      rw [addSectionStep_obj ty acc nc fs hfs, dictLookup_dictInsert] at hlk
      by_cases hn : n2 = nc.1
      · rw [if_pos hn] at hlk
        injection hlk with hw2
        rw [← hw2]
        have hct : configType (JVal.obj (dictInsert fs "type" (JVal.str ty))) =
            ty := by
          simp [configType, dictLookup_dictInsert]
        rw [hct]
        exact hty
      · rw [if_neg hn] at hlk
        exact hacc n2 w2 hlk
    · rw [addSectionStep_not_obj ty acc nc (by simpa using hobj)] at hlk
      exact hacc n2 w2 hlk

/-- The flattened map's values all carry a canonical `"type"` string. -/
theorem normalizeConfigAux_configType :
    ∀ (l acc : List (String × JVal)),
      (∀ n w, dictLookup acc n = some w →
        configType w ∈ ["postgresql", "mysql", "sqlserver", "sqlite"]) →
      ∀ cfg, normalizeConfigAux acc l = .ok cfg →
      ∀ n w, dictLookup cfg n = some w →
        configType w ∈ ["postgresql", "mysql", "sqlserver", "sqlite"] := by
  intro l
  induction l with
  | nil =>
    intro acc hacc cfg hcfg
    cases hcfg
    exact hacc
  | cons e rest ih =>
    intro acc hacc cfg hcfg
    by_cases hk : strLower e.1 ∈ knownTypes
    · by_cases hobj : e.2.isObj = true
      · obtain ⟨conns, hv⟩ := (JVal.isObj_iff e.2).mp hobj
        rw [normalizeConfigAux_cons_obj acc e rest conns hk hv] at hcfg
        exact ih _
          (addSection_configType _ conns acc hacc
            (resolveAlias_canonical _ hk)) cfg hcfg
      · rw [normalizeConfigAux_cons_bad_value acc e rest hk
          (by simpa using hobj)] at hcfg
        exact Except.noConfusion hcfg
    · rw [normalizeConfigAux_cons_unknown acc e rest hk] at hcfg
      exact Except.noConfusion hcfg

theorem normalizeConfig_configType (raw cfg : List (String × JVal))
    (hnorm : normalizeConfig raw = .ok cfg) (n : String) (w : JVal)
    (hw : dictLookup cfg n = some w) :
    configType w ∈ ["postgresql", "mysql", "sqlserver", "sqlite"] :=
  normalizeConfigAux_configType raw []
    (fun _ _ h => absurd h (by simp [dictLookup])) cfg hnorm n w hw

theorem dictInsert_keys_nodup {α : Type} (m : List (String × α))
    (k : String) (v : α) (h : (dictKeys m).Nodup) :
    (dictKeys (dictInsert m k v)).Nodup := by
  rw [dictKeys_dictInsert]
  by_cases hany : m.any (fun e => e.1 = k)
  · rw [if_pos hany]
    exact h
  · rw [if_neg hany]
    have hfalse : (m.any (fun e => e.1 = k)) = false := by
      cases hb : m.any (fun e => e.1 = k)
      · rfl
      · exact absurd hb hany
    have hnone : dictLookup m k = none :=
      (dictLookup_eq_none_iff m k).mpr hfalse
    have hnm : k ∉ dictKeys m := by
      intro hmem
      obtain ⟨w, hw⟩ := dictLookup_of_mem_keys m k hmem
      rw [hnone] at hw
      exact Option.noConfusion hw
    simp [List.nodup_append, h, hnm]

theorem addSection_keys_nodup (ty : String) :
    ∀ (conns acc : List (String × JVal)), (dictKeys acc).Nodup →
      (dictKeys (addSection acc ty conns)).Nodup := by
  intro conns
  induction conns with
  | nil => intro acc h; exact h
  | cons nc rest ih =>
    intro acc h
    have hstep : addSection acc ty (nc :: rest) =
        addSection (addSectionStep ty acc nc) ty rest := by
      simp [addSection]
    rw [hstep]
    apply ih
    by_cases hobj : nc.2.isObj = true
    · obtain ⟨fs, hfs⟩ := (JVal.isObj_iff nc.2).mp hobj
      rw [addSectionStep_obj ty acc nc fs hfs]
      exact dictInsert_keys_nodup _ _ _ h
    · rw [addSectionStep_not_obj ty acc nc (by simpa using hobj)]
      exact h

theorem normalizeConfigAux_keys_nodup :
    ∀ (l acc : List (String × JVal)), (dictKeys acc).Nodup →
      ∀ cfg, normalizeConfigAux acc l = .ok cfg → (dictKeys cfg).Nodup := by
  intro l
  induction l with
  | nil =>
    intro acc h cfg hcfg
    cases hcfg
    exact h
  | cons e rest ih =>
    intro acc h cfg hcfg
    by_cases hk : strLower e.1 ∈ knownTypes
    · by_cases hobj : e.2.isObj = true
      · obtain ⟨conns, hv⟩ := (JVal.isObj_iff e.2).mp hobj
        rw [normalizeConfigAux_cons_obj acc e rest conns hk hv] at hcfg
        exact ih _ (addSection_keys_nodup _ conns acc h) cfg hcfg
      · rw [normalizeConfigAux_cons_bad_value acc e rest hk
          (by simpa using hobj)] at hcfg
        exact Except.noConfusion hcfg
    · rw [normalizeConfigAux_cons_unknown acc e rest hk] at hcfg
      exact Except.noConfusion hcfg

/-- An association list with duplicate-free keys splits at any bound key. -/
theorem dict_decompose {α : Type} :
    ∀ (m : List (String × α)) (k : String) (v : α),
      (dictKeys m).Nodup → dictLookup m k = some v →
      ∃ pre post, m = pre ++ (k, v) :: post ∧
        k ∉ dictKeys pre ∧ k ∉ dictKeys post := by
  intro m
  induction m with
  | nil =>
    intro k v _ h
    exact Option.noConfusion h
  | cons e rest ih =>
    intro k v hnd hlk
    rw [dictKeys, List.map_cons, List.nodup_cons] at hnd
    by_cases he : e.1 = k
    · rw [dictLookup, if_pos he] at hlk
      injection hlk with hv
      have hek : e = (k, v) := Prod.ext he hv
      refine ⟨[], rest, by rw [hek]; rfl, by simp [dictKeys], ?_⟩
      rw [← he]
      exact hnd.1
    · rw [dictLookup, if_neg he] at hlk
      obtain ⟨pre, post, hm, hpre, hpost⟩ := ih k v hnd.2 hlk
      refine ⟨e :: pre, post, by rw [List.cons_append, ← hm], ?_, hpost⟩
      have hkeys : dictKeys (e :: pre) = e.1 :: dictKeys pre := rfl
      rw [hkeys]
      intro hmem
      rcases List.mem_cons.mp hmem with hcase | hcase
      · exact he hcase.symm
      · exact hpre hcase


/-- The pre-connect pass never touches a name that already has a pool, and
never issues a connect attempt for it. -/
theorem preconnect_preserves_connected (env : Env) (name : String) (p : Nat) :
    ∀ (l : List (String × JVal)) (st : SrvState) (tr : List String),
      dictLookup st.connections name = some p →
      dictLookup (l.foldl (preconnectStep env) (st, tr)).1.connections name =
        some p ∧
      countOcc (l.foldl (preconnectStep env) (st, tr)).2 name =
        countOcc tr name := by
  intro l
  induction l with
  | nil => intro st tr h; exact ⟨h, rfl⟩
  | cons e rest ih =>
    intro st tr h
    rw [List.foldl_cons]
    by_cases hc : (dictLookup st.connections e.1).isSome
    · rw [show preconnectStep env (st, tr) e = (st, tr) from by
        simp [preconnectStep, hc]]
      exact ih st tr h
    · have hne : e.1 ≠ name := by
        intro hee
        rw [hee, h] at hc
        exact hc rfl
      cases hga : get_adapter (strLower (configType e.2)) with
      | error msg =>
        rw [show preconnectStep env (st, tr) e = (st, tr) from by
          simp [preconnectStep, hc, hga]]
        exact ih st tr h
      | ok ad =>
        cases hco : env.connectOutcome e.1 with
        | ok q =>
          rw [show preconnectStep env (st, tr) e =
              ({ connections := dictInsert st.connections e.1 q
                 adapters := dictInsert st.adapters e.1 ad }, tr ++ [e.1])
            from by simp [preconnectStep, hc, hga, hco]]
          obtain ⟨h1, h2⟩ := ih
            { connections := dictInsert st.connections e.1 q
              adapters := dictInsert st.adapters e.1 ad } (tr ++ [e.1]) (by
            show dictLookup (dictInsert st.connections e.1 q) name = some p
            rw [dictLookup_dictInsert, if_neg (fun hh => hne hh.symm)]
            exact h)
          refine ⟨h1, ?_⟩
          rw [h2, countOcc_append, countOcc_single_ne e.1 name hne, Nat.add_zero]
        | error msg =>
          rw [show preconnectStep env (st, tr) e = (st, tr ++ [e.1]) from by
            simp [preconnectStep, hc, hga, hco]]
          obtain ⟨h1, h2⟩ := ih st (tr ++ [e.1]) h
          refine ⟨h1, ?_⟩
          rw [h2, countOcc_append, countOcc_single_ne e.1 name hne, Nat.add_zero]

/-- The pre-connect pass leaves a name that is mentioned nowhere in the
processed entries unconnected and unattempted. -/
theorem preconnect_absent (env : Env) (name : String) :
    ∀ (l : List (String × JVal)) (st : SrvState) (tr : List String),
      dictLookup st.connections name = none → name ∉ dictKeys l →
      dictLookup (l.foldl (preconnectStep env) (st, tr)).1.connections name =
        none ∧
      countOcc (l.foldl (preconnectStep env) (st, tr)).2 name =
        countOcc tr name := by
  intro l
  induction l with
  | nil => intro st tr h _; exact ⟨h, rfl⟩
  | cons e rest ih =>
    intro st tr h hnm
    have hne : e.1 ≠ name := by
      intro hee
      apply hnm
      rw [show dictKeys (e :: rest) = e.1 :: dictKeys rest from rfl, ← hee]
      exact List.mem_cons_self _ _
    have hnm2 : name ∉ dictKeys rest := by
      intro hh
      apply hnm
      rw [show dictKeys (e :: rest) = e.1 :: dictKeys rest from rfl]
      exact List.mem_cons_of_mem _ hh
    rw [List.foldl_cons]
    by_cases hc : (dictLookup st.connections e.1).isSome
    · rw [show preconnectStep env (st, tr) e = (st, tr) from by
        simp [preconnectStep, hc]]
      exact ih st tr h hnm2
    · cases hga : get_adapter (strLower (configType e.2)) with
      | error msg =>
        rw [show preconnectStep env (st, tr) e = (st, tr) from by
          simp [preconnectStep, hc, hga]]
        exact ih st tr h hnm2
      | ok ad =>
        cases hco : env.connectOutcome e.1 with
        | ok q =>
          rw [show preconnectStep env (st, tr) e =
              ({ connections := dictInsert st.connections e.1 q
                 adapters := dictInsert st.adapters e.1 ad }, tr ++ [e.1])
            from by simp [preconnectStep, hc, hga, hco]]
          obtain ⟨h1, h2⟩ := ih
            { connections := dictInsert st.connections e.1 q
              adapters := dictInsert st.adapters e.1 ad } (tr ++ [e.1]) (by
            show dictLookup (dictInsert st.connections e.1 q) name = none
            rw [dictLookup_dictInsert, if_neg (fun hh => hne hh.symm)]
            exact h) hnm2
          refine ⟨h1, ?_⟩
          rw [h2, countOcc_append, countOcc_single_ne e.1 name hne, Nat.add_zero]
        | error msg =>
          rw [show preconnectStep env (st, tr) e = (st, tr ++ [e.1]) from by
            simp [preconnectStep, hc, hga, hco]]
          obtain ⟨h1, h2⟩ := ih st (tr ++ [e.1]) h hnm2
          refine ⟨h1, ?_⟩
          rw [h2, countOcc_append, countOcc_single_ne e.1 name hne, Nat.add_zero]

/-- The pre-connect pass over a configuration that binds `name` exactly once
issues exactly one connect attempt for it: on success the pool is cached, on
failure the name stays absent from the live-pool table. -/
theorem preconnect_entry (env : Env) (name : String) (v : JVal) (ad : AdapterKind)
    (hgood : get_adapter (strLower (configType v)) = .ok ad)
    (pre post : List (String × JVal)) (st : SrvState) (tr : List String)
    (hnone : dictLookup st.connections name = none)
    (hpre : name ∉ dictKeys pre) (hpost : name ∉ dictKeys post) :
    (∀ p, env.connectOutcome name = .ok p →
      dictLookup ((pre ++ (name, v) :: post).foldl (preconnectStep env)
        (st, tr)).1.connections name = some p ∧
      countOcc ((pre ++ (name, v) :: post).foldl (preconnectStep env)
        (st, tr)).2 name = countOcc tr name + 1) ∧
    (∀ msg, env.connectOutcome name = .error msg →
      dictLookup ((pre ++ (name, v) :: post).foldl (preconnectStep env)
        (st, tr)).1.connections name = none ∧
      countOcc ((pre ++ (name, v) :: post).foldl (preconnectStep env)
        (st, tr)).2 name = countOcc tr name + 1) := by
  rw [List.foldl_append]
  obtain ⟨hm1, hm2⟩ := preconnect_absent env name pre st tr hnone hpre
  obtain ⟨st1, tr1, hpair⟩ :
      ∃ st1 tr1, pre.foldl (preconnectStep env) (st, tr) = (st1, tr1) :=
    ⟨_, _, rfl⟩
  rw [hpair] at hm1 hm2 ⊢
  rw [List.foldl_cons]
  have hc : ¬ (dictLookup st1.connections name).isSome := by
    rw [hm1]
    simp
  constructor
  · intro p hco
    rw [show preconnectStep env (st1, tr1) (name, v) =
        ({ connections := dictInsert st1.connections name p
           adapters := dictInsert st1.adapters name ad }, tr1 ++ [name])
      from by simp [preconnectStep, hc, hgood, hco]]
    obtain ⟨h1, h2⟩ := preconnect_preserves_connected env name p post
      { connections := dictInsert st1.connections name p
        adapters := dictInsert st1.adapters name ad } (tr1 ++ [name]) (by
      show dictLookup (dictInsert st1.connections name p) name = some p
      rw [dictLookup_dictInsert, if_pos rfl])
    refine ⟨h1, ?_⟩
    rw [h2, countOcc_append, hm2]
    simp [countOcc]
  · intro msg hco
    rw [show preconnectStep env (st1, tr1) (name, v) = (st1, tr1 ++ [name])
      from by simp [preconnectStep, hc, hgood, hco]]
    obtain ⟨h1, h2⟩ := preconnect_absent env name post st1 (tr1 ++ [name])
      hm1 hpost
    refine ⟨h1, ?_⟩
    rw [h2, countOcc_append, hm2]
    simp [countOcc]

/-! ## Claim C2 -/

/-- **C2, counterexample.** The claim says an operation never makes a second
connect attempt for the same logical name.  But `_ensure_connection`
(`server.py:188-215`) first calls `_load_database_connections`, whose
pre-connect loop (`server.py:276-285`) already attempts one connect for every
unconnected configured name, swallowing the failure; `_ensure_connection`
then retries the same name itself.  With one configured SQLite database whose
backend refuses connections, a single `_ensure_connection("db1")` call issues
two connect attempts for `"db1"`. -/
theorem c2_second_attempt_counterexample :
    countOcc (ensure_connection envC2 ⟨[], []⟩ "db1").2.2 "db1" = 2 := rfl

/-- **C2, amended.** An operation that needs a live handle on a configured
name either reuses the existing pool handle with no connect attempt, or — if
no pool exists — attempts a fresh connect: exactly one attempt when the
connect succeeds (made by the per-operation pre-connect pass, whose pool is
then reused), but exactly two attempts when the connect fails (the
pre-connect pass swallows the first failure and `_ensure_connection` retries
and raises the wrapped `ConnectionError`); there is no cached failure state —
after a failed operation the name has no entry in the live-pool table, so the
next operation attempts to connect again (`server.py:188-215`,
`server.py:260-285`). -/
theorem c2_amended_connect_attempts (env : Env) (st : SrvState) (name : String)
    (cfg : List (String × JVal)) (v : JVal)
    (hnorm : normalizeConfig env.fileConfig = .ok cfg)
    (hv : dictLookup cfg name = some v) :
    (∀ p, dictLookup st.connections name = some p →
      countOcc (ensure_connection env st name).2.2 name = 0 ∧
      ∃ ad, (ensure_connection env st name).1 = .ok (p, ad)) ∧
    (dictLookup st.connections name = none →
      ∀ p, env.connectOutcome name = .ok p →
        countOcc (ensure_connection env st name).2.2 name = 1 ∧
        ∃ ad, (ensure_connection env st name).1 = .ok (p, ad)) ∧
    (dictLookup st.connections name = none →
      ∀ msg, env.connectOutcome name = .error msg →
        countOcc (ensure_connection env st name).2.2 name = 2 ∧
        (ensure_connection env st name).1 =
          .error (failedConnectMsg name msg) ∧
        dictLookup
          (ensure_connection env st name).2.1.connections name = none) := by
  obtain ⟨ad0, hgood⟩ := get_adapter_canonical (configType v)
    (normalizeConfig_configType env.fileConfig cfg hnorm name v hv)
  have hnd : (dictKeys cfg).Nodup :=
    normalizeConfigAux_keys_nodup env.fileConfig [] List.nodup_nil cfg hnorm
  obtain ⟨pre, post, hsplit, hpre, hpost⟩ := dict_decompose cfg name v hnd hv
  have hload : load_database_connections env st =
      (.ok cfg, (cfg.foldl (preconnectStep env) (st, [])).1,
        (cfg.foldl (preconnectStep env) (st, [])).2) := by
    simp [load_database_connections, hnorm]
  refine ⟨?_, ?_, ?_⟩
  · intro p hp
    obtain ⟨h1, h2⟩ :=
      preconnect_preserves_connected env name p cfg st [] hp
    have hens : ensure_connection env st name =
        (.ok (p, (dictLookup
            (cfg.foldl (preconnectStep env) (st, [])).1.adapters name).getD
            .postgresql),
          (cfg.foldl (preconnectStep env) (st, [])).1,
          (cfg.foldl (preconnectStep env) (st, [])).2) := by
      simp only [ensure_connection, hload, hv, h1]
    rw [hens]
    exact ⟨h2, ⟨_, rfl⟩⟩
  · intro hnone p hco
    subst hsplit
    obtain ⟨h1, h2⟩ :=
      (preconnect_entry env name v ad0 hgood pre post st [] hnone hpre
        hpost).1 p hco
    have hens : ensure_connection env st name =
        (.ok (p, (dictLookup
            ((pre ++ (name, v) :: post).foldl (preconnectStep env)
              (st, [])).1.adapters name).getD .postgresql),
          ((pre ++ (name, v) :: post).foldl (preconnectStep env) (st, [])).1,
          ((pre ++ (name, v) :: post).foldl (preconnectStep env)
            (st, [])).2) := by
      simp only [ensure_connection, hload, hv, h1]
    rw [hens]
    exact ⟨h2, ⟨_, rfl⟩⟩
  · intro hnone msg hco
    subst hsplit
    obtain ⟨h1, h2⟩ :=
      (preconnect_entry env name v ad0 hgood pre post st [] hnone hpre
        hpost).2 msg hco
    have hens : ensure_connection env st name =
        (.error (failedConnectMsg name msg),
          ((pre ++ (name, v) :: post).foldl (preconnectStep env) (st, [])).1,
          ((pre ++ (name, v) :: post).foldl (preconnectStep env)
            (st, [])).2 ++ [name]) := by
      simp only [ensure_connection, hload, hv, h1, hgood, hco]
    rw [hens]
    refine ⟨?_, rfl, h1⟩
    show countOcc (((pre ++ (name, v) :: post).foldl (preconnectStep env)
      (st, [])).2 ++ [name]) name = 2
    rw [countOcc_append, h2]
    simp [countOcc]

/-- Witness for the amended C2: with the backend refusing connections, an
already-connected name is reused with zero attempts, a fresh successful
connect costs one attempt, and a failing connect costs exactly two attempts,
raises, and leaves no cached pool. -/
theorem c2_amended_connect_attempts_witness :
    (countOcc (ensure_connection envC2
        ⟨[("db1", 7)], [("db1", .sqlite)]⟩ "db1").2.2 "db1" = 0 ∧
      ∃ ad, (ensure_connection envC2
        ⟨[("db1", 7)], [("db1", .sqlite)]⟩ "db1").1 = .ok (7, ad)) ∧
    (countOcc (ensure_connection envC2ok ⟨[], []⟩ "db1").2.2 "db1" = 1 ∧
      ∃ ad, (ensure_connection envC2ok ⟨[], []⟩ "db1").1 = .ok (5, ad)) ∧
    (countOcc (ensure_connection envC2 ⟨[], []⟩ "db1").2.2 "db1" = 2 ∧
      (ensure_connection envC2 ⟨[], []⟩ "db1").1 =
        .error (failedConnectMsg "db1" "boom") ∧
      dictLookup (ensure_connection envC2
        ⟨[], []⟩ "db1").2.1.connections "db1" = none) :=
  ⟨(c2_amended_connect_attempts envC2 ⟨[("db1", 7)], [("db1", .sqlite)]⟩
      "db1" [("db1", JVal.obj [("type", JVal.str "sqlite")])]
      (JVal.obj [("type", JVal.str "sqlite")]) rfl rfl).1 7 rfl,
   (c2_amended_connect_attempts envC2ok ⟨[], []⟩
      "db1" [("db1", JVal.obj [("type", JVal.str "sqlite")])]
      (JVal.obj [("type", JVal.str "sqlite")]) rfl rfl).2.1 rfl 5 rfl,
   (c2_amended_connect_attempts envC2 ⟨[], []⟩
      "db1" [("db1", JVal.obj [("type", JVal.str "sqlite")])]
      (JVal.obj [("type", JVal.str "sqlite")]) rfl rfl).2.2 rfl "boom" rfl⟩

end MultiDb
